import Mathlib

/-!
Verification of the collection trait layer in `src/src/libcollections/traits.rs`.

The traits are shallowly embedded as follows.  A trait whose required methods
are pure observations/updates of the container state is a structure of
functions over an abstract state type `σ`.  Rust's internal-iteration method
`foreach` (which calls a closure on each element in traversal order and stops
after the closure first yields `true`, the closure capturing mutable locals)
is embedded as `foreachRun`: a fold with early exit over the traversal list,
threading the closure's captured state explicitly.  Concrete conforming
containers used as instances are lists (traversal order = list order).
Machine integers (`uint`) are `Nat` with explicit wraparound where the source
can underflow.
-/

/-- Embedding of `Container::foreach`: call `f` on each element of the
traversal `elems` in order, threading the closure's captured mutable state
`s`, and stop after the first time the closure yields `true`. -/
def foreachRun {T S : Type} (elems : List T) (f : S → T → S × Bool) (s : S) : S :=
  match elems with
  | [] => s
  | x :: xs =>
    let r := f s x
    if r.2 then r.1 else foreachRun xs f r.1

/-- Embedding of trait `Collection`: the one required method, `len`. -/
structure Collection (σ : Type) where
  len : σ → Nat

/-- Default body of `Collection::is_empty`: `self.len() == 0`
(the source writes the field access `self.len`, with `len()` the evident
intent). -/
def Collection.is_empty {σ : Type} (M : Collection σ) (s : σ) : Bool :=
  M.len s == 0

/-- Embedding of trait `MutableCollection`: `len` from `Collection`, and the
implementation-overridable `reserve` that the `reserve_additional` default
delegates to. -/
structure MutableCollection (σ : Type) where
  len : σ → Nat
  reserve : σ → Nat → σ

/-- Default body of `MutableCollection::reserve`: empty, a no-op on the
state. -/
def MutableCollection.reserve_default {σ : Type} (s : σ) (capacity : Nat) : σ :=
  s

/-- Default body of `MutableCollection::reserve_exact`: empty, a no-op. -/
def MutableCollection.reserve_exact_default {σ : Type} (s : σ) (capacity : Nat) : σ :=
  s

/-- Default body of `MutableCollection::shrink_to_fit`: empty, a no-op. -/
def MutableCollection.shrink_to_fit_default {σ : Type} (s : σ) : σ :=
  s

/-- Default body of `MutableCollection::reserve_additional`:
`self.reserve(self.len() + extra)`. -/
def MutableCollection.reserve_additional {σ : Type} (M : MutableCollection σ) (s : σ) (extra : Nat) : σ :=
  M.reserve s (M.len s + extra)

/-- Embedding of trait `MutableContainer`: `len` from `Collection` and the
required insertion primitive `swap`, which returns the updated state together
with the evicted value (`none` when occupancy simply grew). -/
structure MutableContainer (σ T : Type) where
  len : σ → Nat
  swap : σ → T → σ × Option T

/-- Default body of `MutableContainer::insert`: `self.swap(value).is_none()`,
returned together with the updated state. -/
def MutableContainer.insert {σ T : Type} (M : MutableContainer σ T) (s : σ) (value : T) : σ × Bool :=
  let r := M.swap s value
  (r.1, r.2.isNone)

/-- A concrete conforming `MutableContainer`: a stack of naturals whose `swap`
pushes on the front and never evicts. -/
def stackImpl : MutableContainer (List Nat) Nat :=
  ⟨List.length, fun s v => (v :: s, none)⟩

/-- Claim C8: for every conforming Collection, the default `is_empty()`
returns true if and only if `len() == 0` — the default body computes exactly
this equation. -/
theorem C8_is_empty_default {σ : Type} (M : Collection σ) (s : σ) :
    M.is_empty s = true ↔ M.len s = 0 := by
  simp [Collection.is_empty]

/-- Claim C9: the default `reserve`, `reserve_exact` and `shrink_to_fit`
leave the state (hence the logical contents and `len()`) completely
unchanged, and the default `reserve_additional(extra)` is exactly the call
`reserve(len() + extra)`. -/
theorem C9_capacity_hints {σ : Type} (M : MutableCollection σ) (s : σ) (n extra : Nat) :
    MutableCollection.reserve_default s n = s ∧
    MutableCollection.reserve_exact_default s n = s ∧
    MutableCollection.shrink_to_fit_default s = s ∧
    M.len (MutableCollection.reserve_default s n) = M.len s ∧
    M.reserve_additional s extra = M.reserve s (M.len s + extra) := by
  refine ⟨rfl, rfl, rfl, rfl, rfl⟩

/-- Claim C1: the default `insert(v)` returns true if and only if `swap(v)`
returns no evicted value, and — under `swap`'s documented contract that a
`none` result means the length grew by one — whenever `insert(v)` returns
true, `len()` increases by exactly 1. -/
theorem C1_insert_default {σ T : Type} (M : MutableContainer σ T) (s : σ) (v : T)
    (hswap : (M.swap s v).2 = none → M.len (M.swap s v).1 = M.len s + 1) :
    ((M.insert s v).2 = true ↔ (M.swap s v).2 = none) ∧
    ((M.insert s v).2 = true → M.len (M.insert s v).1 = M.len s + 1) := by
  constructor
  · simp [MutableContainer.insert, Option.isNone_iff_eq_none]
  · intro h
    have hnone : (M.swap s v).2 = none := by
      simpa [MutableContainer.insert, Option.isNone_iff_eq_none] using h
    simpa [MutableContainer.insert] using hswap hnone

/-- Witness for C1 at a concrete stack: pushing 5 onto [1, 2] evicts nothing
and grows the length by one. -/
theorem C1_insert_default_witness :
    ((stackImpl.insert [1, 2] 5).2 = true ↔ (stackImpl.swap [1, 2] 5).2 = none) ∧
    ((stackImpl.insert [1, 2] 5).2 = true →
      stackImpl.len (stackImpl.insert [1, 2] 5).1 = stackImpl.len [1, 2] + 1) :=
  C1_insert_default stackImpl [1, 2] 5 (by intro h; rfl)

/-- Embedding of trait `SearchableContainer`: a concrete conforming container,
carrying the traversal order of its `foreach` as a list. -/
structure SearchableContainer (T : Type) where
  elems : List T

/-- The required method `SearchableContainer::contains` for the concrete
model, consistent with `foreach` as its documentation requires: true iff
some traversed element equals `value`. -/
def SearchableContainer.contains {T : Type} [DecidableEq T] (c : SearchableContainer T) (value : T) : Bool :=
  c.elems.any fun x => decide (x = value)

/-- Default body of `SearchableContainer::contains_all`, over the traversal
list of the `other` container: `found` starts true; the closure sets
`found = self.contains(x)` and yields `found` (so `foreach` stops the first
time `found` is true); the final `found` is returned. -/
def SearchableContainer.contains_all {T : Type} [DecidableEq T] (c : SearchableContainer T) (other : List T) : Bool :=
  foreachRun other (fun _found x => let f := c.contains x; (f, f)) true

/-- Default body of `Set::is_subset`: iterate `other`'s traversal, set
`result = self.contains(x)`, the closure yielding `!result` (stop at the
first element of `other` not contained in `self`); return `result`. -/
def Set.is_subset {T : Type} [DecidableEq T] (self other : SearchableContainer T) : Bool :=
  foreachRun other.elems (fun _result x => let r := self.contains x; (r, !r)) true

/-- Default body of `Set::is_superset`: `other.is_subset(self)`. -/
def Set.is_superset {T : Type} [DecidableEq T] (self other : SearchableContainer T) : Bool :=
  Set.is_subset other self

/-- Claim C2 fails on the code: with `self` traversing [1] and `other`
traversing [1, 2], the default `contains_all` returns true even though 2 is
not contained in `self` — the closure yields `found` itself, so the
traversal stops at the first element that IS contained, contradicting the
method's own doc comment (true iff every element is contained) and the
claimed short-circuit on the first absent element. -/
theorem C2_contains_all_eval :
    SearchableContainer.contains_all (SearchableContainer.mk [1] : SearchableContainer Nat) [1, 2] = true ∧
    SearchableContainer.contains (SearchableContainer.mk [1] : SearchableContainer Nat) 2 = false := by
  decide

/-- Claim C4 fails on the code: the default `is_subset` iterates `other` and
tests `self.contains`, so with A traversing [1, 2] and B traversing [1],
`A.is_subset(B)` returns true although 2 is an element of A not contained in
B. The `is_superset` default is literally `other.is_subset(self)` as the
claim states. -/
theorem C4_is_subset_eval :
    Set.is_subset (SearchableContainer.mk [1, 2] : SearchableContainer Nat) (SearchableContainer.mk [1]) = true ∧
    SearchableContainer.contains (SearchableContainer.mk [1, 2] : SearchableContainer Nat) 2 = true ∧
    SearchableContainer.contains (SearchableContainer.mk [1] : SearchableContainer Nat) 2 = false ∧
    Set.is_superset (SearchableContainer.mk [1, 2] : SearchableContainer Nat) (SearchableContainer.mk [1]) =
      Set.is_subset (SearchableContainer.mk [1] : SearchableContainer Nat) (SearchableContainer.mk [1, 2]) := by
  refine ⟨by decide, by decide, by decide, rfl⟩

/-- Embedding of trait `SortedMap`: a concrete conforming map, carrying the
(implementation-chosen, not necessarily key-sorted) traversal order of its
inherited `Map::foreach` as a list of key-value pairs. -/
structure SortedMap (K V : Type) where
  entries : List (K × V)

/-- Default body of `SortedMap::min`: `min` starts at `None`; the source
iterates with `self.foreach` (the unsorted `Map` traversal, not
`foreach_sorted`), the closure storing the visited pair and yielding `true`,
so the first pair of the `foreach` traversal is returned. -/
def SortedMap.min {K V : Type} (m : SortedMap K V) : Option (K × V) :=
  foreachRun m.entries (fun _mn kv => (some kv, true)) none

/-- Default body of `SortedMap::max`: as `min` but the closure yields
`false`, so the last pair of the `foreach` traversal is returned. -/
def SortedMap.max {K V : Type} (m : SortedMap K V) : Option (K × V) :=
  foreachRun m.entries (fun _mx kv => (some kv, false)) none

/-- Claim C5 fails on the code for SortedMap: the defaults use the unsorted
`foreach` traversal, so on a conforming map whose `foreach` visits
[(2, 20), (1, 10)], `min()` returns the pair with key 2 although key 1 < 2
is present, and `max()` returns the pair with key 1 although key 2 > 1 is
present — not the least/greatest key required by the claim and by the
method descriptions `SortedMap` refers to. -/
theorem C5_sortedmap_min_eval :
    SortedMap.min (SortedMap.mk [(2, 20), (1, 10)] : SortedMap Nat Nat) = some (2, 20) ∧
    SortedMap.max (SortedMap.mk [(2, 20), (1, 10)] : SortedMap Nat Nat) = some (1, 10) ∧
    (List.any (SortedMap.mk [(2, 20), (1, 10)] : SortedMap Nat Nat).entries fun kv => decide (kv.1 < 2)) = true ∧
    (List.any (SortedMap.mk [(2, 20), (1, 10)] : SortedMap Nat Nat).entries fun kv => decide (kv.1 > 1)) = true := by
  decide

/-- The modulus of the source's `uint` arithmetic. -/
def U64 : Nat := 2 ^ 64

/-- Wrapping `uint` subtraction `a - b` (for `a`, `b` below `U64`). -/
def uintSub (a b : Nat) : Nat :=
  if b ≤ a then a - b else a + U64 - b

/-- The loop `for i in range(0, amount) { self.pop_back(); }` on the list
model of a `ResizableList`: pop the back element `n` times, a pop on an
empty list being a no-op. -/
def popBackN {T : Type} (s : List T) : Nat → List T
  | 0 => s
  | n + 1 => popBackN s.dropLast n

/-- Default body of `ResizableList::truncate`: compute
`amount = self.len() - len` in `uint` arithmetic, pop the back `amount`
times, and return `if amount < 0 { 0 } else { amount }` (a guard that can
never fire on an unsigned count). -/
def ResizableList.truncate {T : Type} (s : List T) (len : Nat) : List T × Nat :=
  let amount := uintSub s.length len
  let s2 := popBackN s amount
  (s2, if amount < 0 then 0 else amount)

/-- Popping the back at least `length` many times empties the list. -/
theorem popBackN_eq_nil {T : Type} : ∀ (n : Nat) (s : List T), s.length ≤ n → popBackN s n = []
  | 0, s, h => by
    have hs : s = [] := List.eq_nil_of_length_eq_zero (Nat.le_zero.mp h)
    simp [hs, popBackN]
  | n + 1, s, h => by
    have hd : s.dropLast.length ≤ n := by
      rw [List.length_dropLast]
      omega
    simpa [popBackN] using popBackN_eq_nil n s.dropLast hd

/-- Claim C3 fails on the code: on the one-element list [5], `truncate(2)`
computes `amount = 1 - 2` in `uint` arithmetic, which wraps to 2^64 - 1; the
loop then pops until the list is empty, and the dead `amount < 0` guard
returns the wrapped count — instead of leaving the list unchanged and
returning 0 as the claim (and the method's own "does nothing if already
small enough" doc) requires. -/
theorem C3_truncate_eval :
    ResizableList.truncate [5] 2 = (([] : List Nat), U64 - 1) ∧
    ([] : List Nat) ≠ [5] ∧ U64 - 1 ≠ 0 := by
  refine ⟨?_, by simp, by norm_num [U64]⟩
  have hsub : uintSub (List.length [(5 : Nat)]) 2 = U64 - 1 := by
    norm_num [uintSub, U64]
  have hpop : popBackN [(5 : Nat)] (U64 - 1) = [] := by
    refine popBackN_eq_nil (U64 - 1) [5] ?_
    norm_num [U64]
  simp only [ResizableList.truncate, hsub, hpop]
  simp

/-- Embedding of trait `MutableMap`: the required methods `swap` (insert or
replace, returning the prior value under the key) and `pop` (remove,
returning the value that was under the key). -/
structure MutableMap (σ K V : Type) where
  swap : σ → K → V → σ × Option V
  pop : σ → K → σ × Option V

/-- Default body of `MutableMap::insert`: `self.swap(key, value).is_none()`,
returned together with the updated state. -/
def MutableMap.insert {σ K V : Type} (M : MutableMap σ K V) (s : σ) (key : K) (value : V) : σ × Bool :=
  let r := M.swap s key value
  (r.1, r.2.isNone)

/-- Default body of `MutableMap::remove`: `self.pop(key).is_some()`,
returned together with the updated state. -/
def MutableMap.remove {σ K V : Type} (M : MutableMap σ K V) (s : σ) (key : K) : σ × Bool :=
  let r := M.pop s key
  (r.1, r.2.isSome)

/-- Modelled from the spec: `find(key)` returns the associated value or none
— the trait source declares `Map::find` without a body; concrete
association-list model. -/
def alistFind {K V : Type} [DecidableEq K] (l : List (K × V)) (k : K) : Option V :=
  (l.find? fun kv => decide (kv.1 = k)).map fun kv => kv.2

/-- Modelled from the spec: `swap(key, value)` inserts/replaces and returns
the prior value for that key or none — the trait source declares
`MutableMap::swap` without a body; concrete association-list model. -/
def alistSwap {K V : Type} [DecidableEq K] (k : K) (v : V) : List (K × V) → List (K × V) × Option V
  | [] => ([(k, v)], none)
  | kv :: rest =>
    if kv.1 = k then ((k, v) :: rest, some kv.2)
    else
      let r := alistSwap k v rest
      (kv :: r.1, r.2)

/-- Modelled from the spec: `pop(key)` removes and returns the value under
`key` or none — the trait source declares `MutableMap::pop` without a body;
concrete association-list model. -/
def alistPop {K V : Type} [DecidableEq K] (k : K) : List (K × V) → List (K × V) × Option V
  | [] => ([], none)
  | kv :: rest =>
    if kv.1 = k then (rest, some kv.2)
    else
      let r := alistPop k rest
      (kv :: r.1, r.2)

/-- The association-list model packaged as a conforming `MutableMap`. -/
def alistMap (K V : Type) [DecidableEq K] : MutableMap (List (K × V)) K V :=
  ⟨fun s k v => alistSwap k v s, fun s k => alistPop k s⟩

/-- `find` misses exactly when no entry has the key. -/
theorem alistFind_none_iff {K V : Type} [DecidableEq K] (l : List (K × V)) (k : K) :
    alistFind l k = none ↔ ∀ kv ∈ l, kv.1 ≠ k := by
  simp [alistFind, List.find?_eq_none]

/-- Swapping an absent key appends the binding and evicts nothing. -/
theorem alistSwap_absent {K V : Type} [DecidableEq K] (k : K) (v : V) :
    ∀ l : List (K × V), (∀ kv ∈ l, kv.1 ≠ k) → alistSwap k v l = (l ++ [(k, v)], none)
  | [], _ => rfl
  | kv :: rest, h => by
    have hk : kv.1 ≠ k := h kv (List.mem_cons_self kv rest)
    have ih := alistSwap_absent k v rest fun x hx => h x (List.mem_cons_of_mem kv hx)
    simp [alistSwap, hk, ih]

/-- Swapping the key of the last binding replaces it and returns the old
value, when no earlier entry has the key. -/
theorem alistSwap_append {K V : Type} [DecidableEq K] (k : K) (v v2 : V) :
    ∀ l : List (K × V), (∀ kv ∈ l, kv.1 ≠ k) →
      alistSwap k v2 (l ++ [(k, v)]) = (l ++ [(k, v2)], some v)
  | [], _ => by simp [alistSwap]
  | kv :: rest, h => by
    have hk : kv.1 ≠ k := h kv (List.mem_cons_self kv rest)
    have ih := alistSwap_append k v v2 rest fun x hx => h x (List.mem_cons_of_mem kv hx)
    simp [alistSwap, hk, ih]

/-- Popping the key of the last binding removes it and returns its value,
when no earlier entry has the key. -/
theorem alistPop_append {K V : Type} [DecidableEq K] (k : K) (v2 : V) :
    ∀ l : List (K × V), (∀ kv ∈ l, kv.1 ≠ k) →
      alistPop k (l ++ [(k, v2)]) = (l, some v2)
  | [], _ => by simp [alistPop]
  | kv :: rest, h => by
    have hk : kv.1 ≠ k := h kv (List.mem_cons_self kv rest)
    have ih := alistPop_append k v2 rest fun x hx => h x (List.mem_cons_of_mem kv hx)
    simp [alistPop, hk, ih]

/-- Popping an absent key is a no-op returning none. -/
theorem alistPop_absent {K V : Type} [DecidableEq K] (k : K) :
    ∀ l : List (K × V), (∀ kv ∈ l, kv.1 ≠ k) → alistPop k l = (l, none)
  | [], _ => rfl
  | kv :: rest, h => by
    have hk : kv.1 ≠ k := h kv (List.mem_cons_self kv rest)
    have ih := alistPop_absent k rest fun x hx => h x (List.mem_cons_of_mem kv hx)
    simp [alistPop, hk, ih]

/-- Claim C6: on a map not containing key k, `swap(k, v)` returns no prior
value; a second `swap(k, v2)` returns the prior value v; `pop(k)` then
returns v2; a further `pop(k)` returns none — absence is always an explicit
no-value result — and the derived `insert` and `remove` defaults return
`swap(k, v).is_none()` and `pop(k).is_some()` respectively. -/
theorem C6_map_round_trip {K V : Type} [DecidableEq K] (l : List (K × V)) (k : K) (v v2 : V)
    (h : alistFind l k = none) :
    ((alistMap K V).swap l k v).2 = none ∧
    ((alistMap K V).swap ((alistMap K V).swap l k v).1 k v2).2 = some v ∧
    ((alistMap K V).pop ((alistMap K V).swap ((alistMap K V).swap l k v).1 k v2).1 k).2 = some v2 ∧
    ((alistMap K V).pop ((alistMap K V).pop ((alistMap K V).swap ((alistMap K V).swap l k v).1 k v2).1 k).1 k).2 = none ∧
    (MutableMap.insert (alistMap K V) l k v).2 = ((alistMap K V).swap l k v).2.isNone ∧
    (MutableMap.remove (alistMap K V) l k).2 = ((alistMap K V).pop l k).2.isSome := by
  have hk : ∀ kv ∈ l, kv.1 ≠ k := (alistFind_none_iff l k).mp h
  have h1 := alistSwap_absent k v l hk
  have h2 := alistSwap_append k v v2 l hk
  have h3 := alistPop_append k v2 l hk
  have h4 := alistPop_absent k l hk
  refine ⟨?_, ?_, ?_, ?_, rfl, rfl⟩
  · simp [alistMap, h1]
  · simp [alistMap, h1, h2]
  · simp [alistMap, h1, h2, h3]
  · simp [alistMap, h1, h2, h3, h4]

/-- Witness for C6 on a concrete map holding only key 7: the full round
trip for the absent key 3 with values 10 then 20. -/
theorem C6_map_round_trip_witness :
    ((alistMap Nat Nat).swap [(7, 1)] 3 10).2 = none ∧
    ((alistMap Nat Nat).swap ((alistMap Nat Nat).swap [(7, 1)] 3 10).1 3 20).2 = some 10 ∧
    ((alistMap Nat Nat).pop ((alistMap Nat Nat).swap ((alistMap Nat Nat).swap [(7, 1)] 3 10).1 3 20).1 3).2 = some 20 ∧
    ((alistMap Nat Nat).pop ((alistMap Nat Nat).pop ((alistMap Nat Nat).swap ((alistMap Nat Nat).swap [(7, 1)] 3 10).1 3 20).1 3).1 3).2 = none ∧
    (MutableMap.insert (alistMap Nat Nat) [(7, 1)] 3 10).2 = ((alistMap Nat Nat).swap [(7, 1)] 3 10).2.isNone ∧
    (MutableMap.remove (alistMap Nat Nat) [(7, 1)] 3).2 = ((alistMap Nat Nat).pop [(7, 1)] 3).2.isSome :=
  C6_map_round_trip [(7, 1)] 3 10 20 (by decide)

/-- Modelled from the spec: `pop(value)` removes and returns one occurrence
equal to `value`, or none if absent — the trait source declares
`MutableSearchableContainer::pop` without a body; on the concrete list model
(traversal order = list order) it removes the first occurrence. -/
def MutableSearchableContainer.pop {T : Type} [DecidableEq T] (s : List T) (value : T) : List T × Option T :=
  match s with
  | [] => ([], none)
  | x :: xs =>
    if x = value then (xs, some x)
    else
      let r := MutableSearchableContainer.pop xs value
      (x :: r.1, r.2)

/-- `contains` on the concrete list model, consistent with its traversal:
true iff some traversed element equals `value`. -/
def MutableSearchableContainer.contains {T : Type} [DecidableEq T] (s : List T) (value : T) : Bool :=
  s.any fun x => decide (x = value)

/-- Default body of `MutableSearchableContainer::remove`:
`self.pop(value).is_some()`, returned with the updated state. -/
def MutableSearchableContainer.remove {T : Type} [DecidableEq T] (s : List T) (value : T) : List T × Bool :=
  let r := MutableSearchableContainer.pop s value
  (r.1, r.2.isSome)

/-- A successful pop strictly shrinks the container. -/
theorem msc_pop_length_lt {T : Type} [DecidableEq T] (value : T) :
    ∀ s : List T, (MutableSearchableContainer.pop s value).2.isSome = true →
      (MutableSearchableContainer.pop s value).1.length < s.length := by
  intro s
  induction s with
  | nil => simp [MutableSearchableContainer.pop]
  | cons x xs ih =>
    by_cases hx : x = value
    · simp [MutableSearchableContainer.pop, hx]
    · intro h
      have h2 : (MutableSearchableContainer.pop xs value).2.isSome = true := by
        simpa [MutableSearchableContainer.pop, hx] using h
      have h3 := ih h2
      simp only [MutableSearchableContainer.pop, hx, if_false, List.length_cons]
      simpa using Nat.succ_lt_succ h3

/-- Default body of `MutableSearchableContainer::erase`: repeatedly call
`remove(value)`, incrementing a counter, until it reports false, and return
the counter. -/
def MutableSearchableContainer.erase {T : Type} [DecidableEq T] (s : List T) (value : T) : List T × Nat :=
  let r := MutableSearchableContainer.remove s value
  if h : r.2 = true then
    let e := MutableSearchableContainer.erase r.1 value
    (e.1, e.2 + 1)
  else
    (r.1, 0)
termination_by s.length
decreasing_by
  have h2 : (MutableSearchableContainer.pop s value).2.isSome = true := by
    simpa [MutableSearchableContainer.remove] using h
  simpa [MutableSearchableContainer.remove] using msc_pop_length_lt value s h2

/-- A successful pop removes exactly one occurrence of `value` and leaves
the other elements alone. -/
theorem msc_pop_found {T : Type} [DecidableEq T] (value : T) :
    ∀ s : List T, (MutableSearchableContainer.pop s value).2.isSome = true →
      (MutableSearchableContainer.pop s value).1.countP (fun x => decide (x = value)) + 1
        = s.countP (fun x => decide (x = value)) ∧
      (MutableSearchableContainer.pop s value).1.filter (fun x => decide (¬ x = value))
        = s.filter (fun x => decide (¬ x = value)) := by
  intro s
  induction s with
  | nil => simp [MutableSearchableContainer.pop]
  | cons x xs ih =>
    by_cases hx : x = value
    · intro _h
      constructor
      · simp [MutableSearchableContainer.pop, hx, List.countP_cons]
      · simp [MutableSearchableContainer.pop, hx, List.filter_cons]
    · intro h
      have h2 : (MutableSearchableContainer.pop xs value).2.isSome = true := by
        simpa [MutableSearchableContainer.pop, hx] using h
      have h3 := ih h2
      constructor
      · simpa [MutableSearchableContainer.pop, hx, List.countP_cons] using h3.1
      · simpa [MutableSearchableContainer.pop, hx, List.filter_cons] using h3.2

/-- A failed pop means no occurrence: the state is unchanged, the count of
`value` is zero and filtering `value` away changes nothing. -/
theorem msc_pop_none {T : Type} [DecidableEq T] (value : T) :
    ∀ s : List T, (MutableSearchableContainer.pop s value).2.isSome = false →
      (MutableSearchableContainer.pop s value).1 = s ∧
      s.countP (fun x => decide (x = value)) = 0 ∧
      s.filter (fun x => decide (¬ x = value)) = s := by
  intro s
  induction s with
  | nil => simp [MutableSearchableContainer.pop]
  | cons x xs ih =>
    by_cases hx : x = value
    · simp [MutableSearchableContainer.pop, hx]
    · intro h
      have h2 : (MutableSearchableContainer.pop xs value).2.isSome = false := by
        simpa [MutableSearchableContainer.pop, hx] using h
      have h3 := ih h2
      refine ⟨?_, ?_, ?_⟩
      · simp [MutableSearchableContainer.pop, hx, h3.1]
      · simp [List.countP_cons, hx, h3.2.1]
      · rw [List.filter_cons, if_pos (by simp [hx]), h3.2.2]

/-- The erase loop filters out every occurrence and counts them; proved by
strong induction on the length bound. -/
theorem msc_erase_spec_aux {T : Type} [DecidableEq T] (value : T) :
    ∀ (n : Nat) (s : List T), s.length ≤ n →
      MutableSearchableContainer.erase s value
        = (s.filter (fun x => decide (¬ x = value)), s.countP (fun x => decide (x = value))) := by
  intro n
  induction n with
  | zero =>
    intro s hs
    have hnil : s = [] := List.eq_nil_of_length_eq_zero (Nat.le_zero.mp hs)
    subst hnil
    unfold MutableSearchableContainer.erase
    simp [MutableSearchableContainer.remove, MutableSearchableContainer.pop]
  | succ n ih =>
    intro s hs
    unfold MutableSearchableContainer.erase
    by_cases hsome : (MutableSearchableContainer.pop s value).2.isSome = true
    · have hlt := msc_pop_length_lt value s hsome
      have hfc := msc_pop_found value s hsome
      have hrec := ih (MutableSearchableContainer.pop s value).1 (by omega)
      simp only [MutableSearchableContainer.remove]
      rw [dif_pos hsome, hrec, hfc.1, hfc.2]
    · have hn := msc_pop_none value s (by simpa using hsome)
      simp only [MutableSearchableContainer.remove]
      rw [dif_neg hsome, hn.1, hn.2.1, hn.2.2]

/-- Claim C7: the default `erase(v)` (repeated `remove` until it reports
false) returns exactly the number of occurrences equal to v, what remains is
the original contents with every occurrence of v removed, and afterwards
`contains(v)` is false. -/
theorem C7_erase_spec {T : Type} [DecidableEq T] (s : List T) (value : T) :
    (MutableSearchableContainer.erase s value).2 = s.countP (fun x => decide (x = value)) ∧
    (MutableSearchableContainer.erase s value).1 = s.filter (fun x => decide (¬ x = value)) ∧
    MutableSearchableContainer.contains (MutableSearchableContainer.erase s value).1 value = false := by
  have h := msc_erase_spec_aux value s.length s (Nat.le_refl _)
  refine ⟨by rw [h], by rw [h], ?_⟩
  rw [h]
  simp [MutableSearchableContainer.contains, List.any_eq_true, List.mem_filter]

/-- Embedding of trait `MutableList`: `len` from `Collection` and the
required method `swap_at`, which replaces the value at an in-bounds index
and returns the prior occupant, or returns none when out of bounds. -/
structure MutableList (σ T : Type) where
  len : σ → Nat
  swap_at : σ → Nat → T → σ × Option T

/-- Default body of `MutableList::insert_at`:
`self.swap_at(index, value).is_some()`, returned with the updated state. -/
def MutableList.insert_at {σ T : Type} (M : MutableList σ T) (s : σ) (index : Nat) (value : T) : σ × Bool :=
  let r := M.swap_at s index value
  (r.1, r.2.isSome)

/-- A concrete conforming `MutableList`: a vector of naturals whose
`swap_at` overwrites in-bounds indices and returns the prior value. -/
def vecImpl : MutableList (List Nat) Nat :=
  ⟨List.length, fun s i v => if i < s.length then (s.set i v, s[i]?) else (s, none)⟩

/-- Claim C10: the default `insert_at(index, value)` returns
`swap_at(index, value).is_some()` — true exactly when the index was
in-bounds and a prior value was replaced (under `swap_at`'s documented
contract) — the opposite polarity of `MutableContainer::insert` and
`MutableMap::insert`, whose defaults return true when `swap` yields none. -/
theorem C10_insert_at_polarity {σ T σ₂ T₂ σ₃ K V : Type}
    (M : MutableList σ T) (s : σ) (i : Nat) (v : T)
    (N : MutableContainer σ₂ T₂) (t : σ₂) (w : T₂)
    (P : MutableMap σ₃ K V) (u : σ₃) (k : K) (v2 : V)
    (hc : (M.swap_at s i v).2.isSome = true ↔ i < M.len s) :
    (M.insert_at s i v).2 = (M.swap_at s i v).2.isSome ∧
    ((M.insert_at s i v).2 = true ↔ i < M.len s) ∧
    (N.insert t w).2 = (N.swap t w).2.isNone ∧
    (P.insert u k v2).2 = (P.swap u k v2).2.isNone := by
  refine ⟨rfl, ?_, rfl, rfl⟩
  simpa [MutableList.insert_at] using hc

/-- Witness for C10 at concrete instances: overwriting index 0 of the
two-element vector [10, 20] replaces a prior value, while the stack and map
inserts report the none-polarity of their swaps. -/
theorem C10_insert_at_polarity_witness :
    (vecImpl.insert_at [10, 20] 0 7).2 = (vecImpl.swap_at [10, 20] 0 7).2.isSome ∧
    ((vecImpl.insert_at [10, 20] 0 7).2 = true ↔ 0 < vecImpl.len [10, 20]) ∧
    (stackImpl.insert [1] 4).2 = (stackImpl.swap [1] 4).2.isNone ∧
    (MutableMap.insert (alistMap Nat Nat) [] 3 10).2 = ((alistMap Nat Nat).swap [] 3 10).2.isNone :=
  C10_insert_at_polarity vecImpl [10, 20] 0 7 stackImpl [1] 4 (alistMap Nat Nat) [] 3 10 (by decide)
